import Mathlib

/-!
# Verification of the SkindexServer response pipeline

Shallow embedding of `src/index.js` (the Express server that relays skincare
product lists to a generative model, normalizes the model's JSON reply, and
formats/sends an email summary).  JavaScript values parsed from JSON are
modelled by `JVal`; JavaScript exceptions (TypeError on property access of
`null`, calling `.map`/`.forEach` on a non-array, strict-mode assignment to a
primitive's property) are modelled with `Except String`.  JSON numbers are
modelled as integers; no claim depends on fractional values.
-/

set_option autoImplicit false

namespace SkindexServer

/-- A JSON value as produced by `JSON.parse`.  Object fields are kept as an
ordered association list, mirroring JavaScript property order (insertion
order); `JSON.parse` never produces duplicate keys. -/
inductive JVal where
  | null : JVal
  | bool : Bool → JVal
  | num : Int → JVal
  | str : String → JVal
  | arr : List JVal → JVal
  | obj : List (String × JVal) → JVal
  deriving Repr, Inhabited

/-- First-match lookup in an object's field list (JavaScript property read). -/
def lookupField : List (String × JVal) → String → Option JVal
  | [], _ => none
  | (k', v) :: rest, k => if k' = k then some v else lookupField rest k

/-- JavaScript property assignment `o[k] = v` on an object: replaces the value
of an existing key in place, appends a new key at the end. -/
def setField : List (String × JVal) → String → JVal → List (String × JVal)
  | [], k, v => [(k, v)]
  | (k', w) :: rest, k, v =>
      if k' = k then (k, v) :: rest else (k', w) :: setField rest k v

/-- JavaScript truthiness of a value. -/
def truthyV : JVal → Bool
  | .null => false
  | .bool b => b
  | .num n => n != 0
  | .str s => s != ""
  | .arr _ => true
  | .obj _ => true

/-- Truthiness of a possibly-`undefined` value (`none` models `undefined`). -/
def truthyO : Option JVal → Bool
  | some v => truthyV v
  | none => false

/-- Total property read: objects look up the field, every other value
(primitives, arrays) yields `undefined` for the named properties used by the
server.  (Reading a property of `null` throws; callers that can receive `null`
use `jsGet` instead.) -/
def getMember : JVal → String → Option JVal
  | .obj fs, k => lookupField fs k
  | _, _ => none

/-- Property read `v.k` as evaluated by JavaScript: throws a `TypeError` when
`v` is `null`, otherwise yields the (possibly `undefined`) member. -/
def jsGet (v : JVal) (k : String) : Except String (Option JVal) :=
  match v with
  | .null => .error "TypeError: cannot read properties of null"
  | v => .ok (getMember v k)

/-- The JavaScript `x || d` default pattern applied to a possibly-`undefined`
value: keeps `x` when truthy, otherwise yields the default. -/
def jsOr (o : Option JVal) (d : JVal) : JVal :=
  match o with
  | some v => if truthyV v then v else d
  | none => d

/-- `Array.isArray` on a possibly-`undefined` value. -/
def isArrO : Option JVal → Bool
  | some (.arr _) => true
  | _ => false

/-- `Array.isArray(x) ? x : []` on a possibly-`undefined` value. -/
def arrOrEmpty : Option JVal → JVal
  | some (.arr xs) => .arr xs
  | _ => .arr []

/-- Left-to-right effectful map, mirroring `Array.prototype.map` over a
callback that can throw: the first exception aborts the whole call. -/
def mapExcept (f : JVal → Except String JVal) : List JVal → Except String (List JVal)
  | [] => .ok []
  | x :: xs => do
      let y ← f x
      let ys ← mapExcept f xs
      pure (y :: ys)

/-- Hex digit for `\uXXXX` escapes. -/
def hexDigit (n : Nat) : Char :=
  if n < 10 then Char.ofNat (48 + n) else Char.ofNat (87 + n)

/-- Four-digit lowercase hex rendering used by `JSON.stringify` control-char
escapes. -/
def hex4 (n : Nat) : String :=
  String.mk [hexDigit (n / 4096 % 16), hexDigit (n / 256 % 16),
             hexDigit (n / 16 % 16), hexDigit (n % 16)]

/-- `JSON.stringify` escaping of one character inside a string literal. -/
def escapeJsonChar (c : Char) : String :=
  if c = '"' then "\\\""
  else if c = '\\' then "\\\\"
  else if c = '\n' then "\\n"
  else if c = '\r' then "\\r"
  else if c = '\t' then "\\t"
  else if c = '\x08' then "\\b"
  else if c = '\x0c' then "\\f"
  else if c.toNat < 32 then "\\u" ++ hex4 c.toNat
  else String.singleton c

/-- `JSON.stringify` escaping of a whole string (no surrounding quotes). -/
def escapeJson (s : String) : String :=
  s.data.foldl (fun acc c => acc ++ escapeJsonChar c) ""

mutual

/-- `JSON.stringify` on a parsed JSON value (no `undefined` members arise from
`JSON.parse`, so the function is total and always returns a string). -/
def jsonStringify : JVal → String
  | .null => "null"
  | .bool b => if b then "true" else "false"
  | .num n => toString n
  | .str s => "\"" ++ escapeJson s ++ "\""
  | .arr xs => "[" ++ jsonStringifyList xs ++ "]"
  | .obj fs => "\x7b" ++ jsonStringifyFields fs ++ "\x7d"
termination_by v => (sizeOf v, 0)

/-- Comma-joined `JSON.stringify` of array elements. -/
def jsonStringifyList : List JVal → String
  | [] => ""
  | [x] => jsonStringify x
  | x :: y :: rest => jsonStringify x ++ "," ++ jsonStringifyList (y :: rest)
termination_by xs => (sizeOf xs, 1)

/-- Comma-joined `JSON.stringify` of object fields. -/
def jsonStringifyFields : List (String × JVal) → String
  | [] => ""
  | [(k, v)] => "\"" ++ escapeJson k ++ "\":" ++ jsonStringify v
  | (k, v) :: y :: rest =>
      "\"" ++ escapeJson k ++ "\":" ++ jsonStringify v ++ "," ++
        jsonStringifyFields (y :: rest)
termination_by fs => (sizeOf fs, 1)

end

mutual

/-- JavaScript `String(v)` / template-literal conversion of a value. -/
def jsDisplay : JVal → String
  | .null => "null"
  | .bool b => if b then "true" else "false"
  | .num n => toString n
  | .str s => s
  | .arr xs => jsJoinElems "," xs
  | .obj _ => "[object Object]"
termination_by v => (sizeOf v, 0)

/-- `Array.prototype.join(sep)`: elements converted with `String(...)`, except
that `null` (and `undefined`, which `JSON.parse` never yields) renders as the
empty string. -/
def jsJoinElems (sep : String) : List JVal → String
  | [] => ""
  | [x] => jsElemStr x
  | x :: y :: rest => jsElemStr x ++ sep ++ jsJoinElems sep (y :: rest)
termination_by xs => (sizeOf xs, 2)

/-- Conversion of a single array element inside `join`. -/
def jsElemStr : JVal → String
  | .null => ""
  | v => jsDisplay v
termination_by v => (sizeOf v, 1)

end

/-- Template-literal conversion of a possibly-`undefined` value. -/
def jsDisplayO : Option JVal → String
  | some v => jsDisplay v
  | none => "undefined"

/-!
## The `/analyze` response normalizer (`src/index.js` lines 191-225)
-/

/-- One product entry of the `json.products.map(...)` callback
(`src/index.js` lines 192-198).  Throws exactly when `p` is `null` (the first
property read `p.name` raises a `TypeError` then). -/
def normalizeProduct (p : JVal) : Except String JVal := do
  let name ← jsGet p "name"
  let description ← jsGet p "description"
  let usageTime ← jsGet p "usageTime"
  let frequency ← jsGet p "frequency"
  let conflictsWith ← jsGet p "conflictsWith"
  pure (.obj
    [("name", jsOr name (.str "Unnamed Product")),
     ("description", jsOr description (.str "")),
     ("usageTime", arrOrEmpty usageTime),
     ("frequency", jsOr frequency (.str "")),
     ("conflictsWith", arrOrEmpty conflictsWith)])

/-- Coercion of one entry of a conflict's `products` array
(`src/index.js` lines 205-209): strings pass through; a truthy value with a
truthy `product` member yields that member; everything else is serialized
with `JSON.stringify`.  Total: `p && p.product` short-circuits, so no
property read of `null` occurs. -/
def coerceConflictProduct (p : JVal) : JVal :=
  match p with
  | .str s => .str s
  | p =>
      if truthyV p && truthyO (getMember p "product") then
        match getMember p "product" with
        | some q => q
        | none => .str (jsonStringify p)
      else .str (jsonStringify p)

/-- Resolution of `conflict.products` into a list (`src/index.js` lines
202-212): an array is coerced elementwise, a bare string becomes a singleton,
anything else gives the empty list. -/
def resolveParticipants : Option JVal → List JVal
  | some (.arr ps) => ps.map coerceConflictProduct
  | some (.str s) => [.str s]
  | _ => []

/-- One conflict entry of the `(json.conflicts || []).map(...)` callback
(`src/index.js` lines 201-218).  Throws exactly when the entry is `null`. -/
def normalizeConflict (c : JVal) : Except String JVal := do
  let products ← jsGet c "products"
  let reason ← jsGet c "reason"
  pure (.obj
    [("products", .arr (resolveParticipants products)),
     ("reason", jsOr reason (.str "unspecified"))])

/-- `(json.conflicts || []).map(conflict => ...)` (`src/index.js` line 201):
a falsy or missing `conflicts` field is replaced by `[]`; calling `.map` on a
truthy non-array throws a `TypeError`. -/
def normalizeConflicts (o : Option JVal) : Except String (List JVal) :=
  match jsOr o (.arr []) with
  | .arr xs => mapExcept normalizeConflict xs
  | _ => .error "TypeError: map is not a function"

/-- `if (!Array.isArray(rr.K)) rr.K = []` for one routine key. -/
def fixRoutineList (fs : List (String × JVal)) (k : String) :
    List (String × JVal) :=
  if isArrO (lookupField fs k) then fs else setField fs k (.arr [])

/-- `recommendedRoutine` repair (`src/index.js` lines 221-223).  A falsy or
missing field is replaced by `{AM: [], PM: []}`.  On an object, a non-array
`AM`/`PM` member is overwritten with `[]`.  On an array, the strict-mode
property writes succeed but the added `AM`/`PM` properties are dropped again
by `res.json`'s JSON serialization, so the client sees the bare array.  On a
truthy primitive, the strict-mode property write `(...).AM = []` throws a
`TypeError`. -/
def normalizeRoutine (o : Option JVal) : Except String JVal :=
  if truthyO o then
    match o with
    | some (.obj fs) => .ok (.obj (fixRoutineList (fixRoutineList fs "AM") "PM"))
    | some (.arr xs) => .ok (.arr xs)
    | _ => .error "TypeError: cannot create property on primitive"
  else .ok (.obj [("AM", .arr []), ("PM", .arr [])])

/-- The whole normalization step (`src/index.js` lines 191-225): rewrites the
`products`, `conflicts` and `recommendedRoutine` fields of the parsed value in
that order and returns the mutated object.  `json.products.map(...)` throws
when the parsed value is not an object with an array `products` field (for
non-objects `json.products` is `undefined`, for `null` the read itself
throws). -/
def normalize (j : JVal) : Except String JVal :=
  match j with
  | .obj fs =>
      match lookupField fs "products" with
      | some (.arr ps) => do
          let ps' ← mapExcept normalizeProduct ps
          let fs1 := setField fs "products" (.arr ps')
          let cs ← normalizeConflicts (lookupField fs1 "conflicts")
          let fs2 := setField fs1 "conflicts" (.arr cs)
          let rr ← normalizeRoutine (lookupField fs2 "recommendedRoutine")
          .ok (.obj (setField fs2 "recommendedRoutine" rr))
      | _ => .error "TypeError: json.products.map is not a function"
  | .null => .error "TypeError: cannot read properties of null"
  | _ => .error "TypeError: json.products.map is not a function"

/-!
## The `/analyze` route handler (`src/index.js` lines 113-231)
-/

/-- Outcome of the model-invocation / fence-stripping / `JSON.parse` stage,
which only runs after input validation passes:
`invokeFail` = both `generateContent` calls rejected; `parseFail` =
`JSON.parse` threw on the stripped text; `parsed v` = the stripped text parsed
to `v`. -/
inductive ModelOutcome where
  | invokeFail : ModelOutcome
  | parseFail : ModelOutcome
  | parsed : JVal → ModelOutcome

/-- An HTTP response together with whether the generative model was invoked
while producing it. -/
structure AnalyzeResponse where
  status : Nat
  body : JVal
  modelInvoked : Bool
  deriving Repr

/-- The `/analyze` input validation (`src/index.js` line 116):
`!products || !Array.isArray(products) || products.length === 0`. -/
def badProductsArg (o : Option JVal) : Bool :=
  !truthyO o || !isArrO o ||
    (match o with | some (.arr xs) => xs.isEmpty | _ => false)

/-- The `/analyze` route handler, parameterized by the `products` member of
the request body and by the outcome of the model stage (reached only when
validation passes).  Normalization failures are caught by the outer `catch`
and reported as a generic 500. -/
def analyzeHandler (products : Option JVal) (outcome : ModelOutcome) :
    AnalyzeResponse :=
  if badProductsArg products then
    ⟨400, .obj [("error", .str "Products array is required.")], false⟩
  else
    match outcome with
    | .invokeFail =>
        ⟨500, .obj [("error", .str "Failed to process the request.")], true⟩
    | .parseFail =>
        ⟨500, .obj [("error", .str "Gemini returned invalid JSON.")], true⟩
    | .parsed v =>
        match normalize v with
        | .ok w => ⟨200, w, true⟩
        | .error _ =>
            ⟨500, .obj [("error", .str "Failed to process the request.")], true⟩

/-!
## Markdown fence stripping (`src/index.js` lines 178-179)
-/

/-- Whitespace as trimmed by `String.prototype.trim` (ASCII whitespace plus
the common Unicode members; the fenced inputs of interest contain none of the
rarer ones). -/
def isJsWhitespace (c : Char) : Bool :=
  c = ' ' || c = '\t' || c = '\n' || c = '\r' || c = '\x0b' || c = '\x0c' ||
    c = '\u00A0' || c = '\uFEFF'

/-- `text.trim()` on the character list of the model reply. -/
def jsTrimChars (cs : List Char) : List Char :=
  ((cs.dropWhile isJsWhitespace).reverse.dropWhile isJsWhitespace).reverse

/-- A regex `\w` character: `[A-Za-z0-9_]`. -/
def isWordChar (c : Char) : Bool :=
  c.isAlpha || c.isDigit || c = '_'

/-- `text.replace(/^``` (\w*)\n/, '')` (without the space): if the text starts
with three backticks followed by a (possibly empty) run of word characters and
a newline, that prefix is removed; otherwise the text is unchanged. -/
def stripOpenFence (cs : List Char) : List Char :=
  match cs with
  | '`' :: '`' :: '`' :: rest =>
      match rest.dropWhile isWordChar with
      | '\n' :: rest2 => rest2
      | _ => cs
  | _ => cs

/-- `text.replace(/``` $/, '')` (without the space): removes a trailing
three-backtick run if present. -/
def stripCloseFence (cs : List Char) : List Char :=
  match cs.reverse with
  | '`' :: '`' :: '`' :: r => r.reverse
  | _ => cs

/-- The fence-stripping step applied to the raw model reply before
`JSON.parse` (`src/index.js` lines 178-179): trim, and if the trimmed text
starts with three backticks, strip the opening fence line and a trailing
fence. -/
def stripModelFence (s : String) : String :=
  let t := jsTrimChars s.data
  if t.take 3 = ['`', '`', '`'] then
    String.mk (stripCloseFence (stripOpenFence t))
  else
    String.mk t

/-!
## The email formatter and `/send-email` handler (`src/index.js` lines 234-296)
-/

/-- `x > 0` applied to the value of `result.conflicts.length`: arrays and
strings expose their length; an object exposes a `length` member, which is
compared to `0` by JavaScript numeric coercion (integral cases modelled;
`JVal` carries no fractional numbers); primitives yield `undefined`, and
`undefined > 0` is false. -/
def jsLengthGtZero (v : JVal) : Bool :=
  match v with
  | .arr xs => !xs.isEmpty
  | .str s => s.length != 0
  | .obj fs =>
      match lookupField fs "length" with
      | some (.num n) => 0 < n
      | some (.bool b) => b
      | some (.str s) =>
          (if s.trim = "" then false
           else match s.trim.toInt? with
                | some n => 0 < n
                | none => false)
      | _ => false
  | _ => false

/-- `Array.isArray(p.usageTime) ? p.usageTime.join(', ') : "unspecified"`. -/
def usageTimeText (o : Option JVal) : String :=
  match o with
  | some (.arr us) => jsJoinElems ", " us
  | _ => "unspecified"

/-- The `result.products.forEach` body (`src/index.js` lines 248-252),
accumulated over the list.  Throws on a `null` entry. -/
def formatProductItems : List JVal → Except String String
  | [] => .ok ""
  | p :: rest => do
      let usageTime ← jsGet p "usageTime"
      let frequency ← jsGet p "frequency"
      let name ← jsGet p "name"
      let description ← jsGet p "description"
      let tail ← formatProductItems rest
      .ok ("- " ++ jsDisplayO name ++ " " ++ jsDisplayO description ++
        "\n  Usage Time: " ++ usageTimeText usageTime ++
        "\n  Frequency: " ++ jsDisplay (jsOr frequency (.str "unspecified")) ++
        "\n\n" ++ tail)

/-- The products section of the email body (`src/index.js` lines 246-253):
rendered only when `result.products` is truthy; `forEach` on a truthy
non-array throws. -/
def productsSection (result : JVal) : Except String String := do
  let pv ← jsGet result "products"
  if truthyO pv then
    match pv with
    | some (.arr xs) => do
        let items ← formatProductItems xs
        .ok ("📦 Products Analysis:\n" ++ items)
    | _ => .error "TypeError: forEach is not a function"
  else .ok ""

/-- `(xs || []).forEach((item, i) => text += `...`)` rendering of one routine
list with 1-based numbering. -/
def numberedItems (i : Nat) : List JVal → String
  | [] => ""
  | x :: rest => toString i ++ ". " ++ jsDisplay x ++ "\n" ++ numberedItems (i + 1) rest

/-- `(rr.AM || [])` / `(rr.PM || [])` followed by `forEach`: the coalesced
value must be an array or `forEach` throws. -/
def forEachArray (v : JVal) : Except String (List JVal) :=
  match v with
  | .arr xs => .ok xs
  | _ => .error "TypeError: forEach is not a function"

/-- The AM/PM routine section of the email body (`src/index.js` lines
255-265), rendered only when `result.recommendedRoutine` is truthy. -/
def routineSection (result : JVal) : Except String String := do
  let rv ← jsGet result "recommendedRoutine"
  if truthyO rv then
    match rv with
    | some rr => do
        let amv ← jsGet rr "AM"
        let amList ← forEachArray (jsOr amv (.arr []))
        let pmv ← jsGet rr "PM"
        let pmList ← forEachArray (jsOr pmv (.arr []))
        .ok ("🌅 Recommended AM Routine:\n" ++ numberedItems 1 amList ++
          "\n🌙 Recommended PM Routine:\n" ++ numberedItems 1 pmList)
    | none => .ok ""
  else .ok ""

/-- The `result.conflicts.forEach` body (`src/index.js` lines 269-273),
accumulated over the list.  Throws on a `null` entry. -/
def formatConflictItems : List JVal → Except String String
  | [] => .ok ""
  | c :: rest => do
      let products ← jsGet c "products"
      let reason ← jsGet c "reason"
      let tail ← formatConflictItems rest
      .ok ("- " ++
        (match products with
         | some (.arr qs) => jsJoinElems " & " qs
         | _ => "unknown") ++
        " " ++ jsDisplay (jsOr reason (.str "unspecified")) ++ "\n" ++ tail)

/-- The conflicts section of the email body (`src/index.js` lines 267-274):
rendered only when `result.conflicts` is truthy with `.length > 0`; `forEach`
on a qualifying non-array (a nonempty string) throws. -/
def conflictsSection (result : JVal) : Except String String := do
  let cv ← jsGet result "conflicts"
  if truthyO cv && (match cv with | some v => jsLengthGtZero v | none => false) then
    match cv with
    | some (.arr cs) => do
        let items ← formatConflictItems cs
        .ok ("\n⚠️ Conflicts:\n" ++ items)
    | _ => .error "TypeError: forEach is not a function"
  else .ok ""

/-- `formatAnalysisToText` (`src/index.js` lines 243-277): header, products
section, AM/PM routine section, and a conflicts section that is emitted only
when `conflicts` is truthy and nonempty. -/
def formatAnalysisToText (result : JVal) : Except String String := do
  let ps ← productsSection result
  let rs ← routineSection result
  let cs ← conflictsSection result
  .ok ("🧴 Your Skincare Analysis Results:\n\n" ++ ps ++ rs ++ cs)

/-- An HTTP response of the `/send-email` route. -/
structure EmailResponse where
  status : Nat
  body : JVal
  deriving Repr

/-- The `/send-email` route handler (`src/index.js` lines 234-296),
parameterized by the `email` and `analysisResult` members of the request body
and by whether the SendGrid delivery call succeeds.  A formatting exception
escapes the handler (only `sgMail.send` is inside the `try`), so Express
answers with its default 500 error page, modelled as status 500 with a `null`
body. -/
def sendEmailHandler (email analysisResult : Option JVal) (sendOk : Bool) :
    EmailResponse :=
  if truthyO email && truthyO analysisResult then
    match analysisResult with
    | some ar =>
        match formatAnalysisToText ar with
        | .error _ => ⟨500, .null⟩
        | .ok _text =>
            if sendOk then
              ⟨200, .obj [("message", .str "Email sent successfully! Please check your spam folder if you do not see it.")]⟩
            else
              ⟨500, .obj [("error", .str "Failed to send email.")]⟩
    | none => ⟨500, .null⟩
  else
    ⟨400, .obj [("error", .str "Email and analysisResult are required.")]⟩

/-!
## Helper lemmas
-/

theorem ok_bind {α β : Type} (a : α) (f : α → Except String β) :
    (Except.ok a >>= f) = f a := rfl

theorem error_bind {α β : Type} (e : String) (f : α → Except String β) :
    ((Except.error e : Except String α) >>= f) = Except.error e := rfl

theorem map_ok {α β : Type} (g : α → β) (a : α) :
    (g <$> (Except.ok a : Except String α)) = Except.ok (g a) := rfl

theorem map_error {α β : Type} (g : α → β) (e : String) :
    (g <$> (Except.error e : Except String α)) = Except.error e := rfl

theorem lookupField_setField_same (fs : List (String × JVal)) (k : String)
    (v : JVal) : lookupField (setField fs k v) k = some v := by
  induction fs with
  | nil => simp [setField, lookupField]
  | cons hd tl ih =>
      obtain ⟨k', w⟩ := hd
      by_cases h : k' = k
      · simp [setField, h, lookupField]
      · simp [setField, h, lookupField, ih]

theorem lookupField_setField_other (fs : List (String × JVal))
    (k k' : String) (v : JVal) (h : k' ≠ k) :
    lookupField (setField fs k' v) k = lookupField fs k := by
  induction fs with
  | nil => simp [setField, lookupField, h]
  | cons hd tl ih =>
      obtain ⟨k0, w⟩ := hd
      by_cases h0 : k0 = k'
      · subst h0
        simp [setField, lookupField, h]
      · by_cases h1 : k0 = k
        · simp [setField, h0, lookupField, h1, Ne.symm h]
        · simp [setField, h0, lookupField, h1, ih]

theorem setField_self (fs : List (String × JVal)) (k : String) (v : JVal)
    (h : lookupField fs k = some v) : setField fs k v = fs := by
  induction fs with
  | nil => simp [lookupField] at h
  | cons hd tl ih =>
      obtain ⟨k0, w⟩ := hd
      by_cases h0 : k0 = k
      · subst h0
        simp [lookupField] at h
        simp [setField, h]
      · simp [lookupField, h0] at h
        simp [setField, h0, ih h]

theorem jsGet_eq (v : JVal) (k : String) (h : v ≠ .null) :
    jsGet v k = .ok (getMember v k) := by
  cases v <;> simp_all [jsGet, getMember]

theorem jsOr_absorb (o : Option JVal) (d : JVal) :
    jsOr (some (jsOr o d)) d = jsOr o d := by
  cases o with
  | none => simp [jsOr]
  | some v =>
      by_cases h : truthyV v
      · simp [jsOr, h]
      · simp [jsOr, h]

theorem arrOrEmpty_isArr (o : Option JVal) :
    ∃ xs, arrOrEmpty o = .arr xs := by
  cases o with
  | none => exact ⟨[], rfl⟩
  | some v => cases v <;> exact ⟨_, rfl⟩

/-- Evaluated form of `normalizeProduct` on a non-`null` entry. -/
theorem normalizeProduct_eq (p : JVal) (hp : p ≠ .null) :
    normalizeProduct p = .ok (.obj
      [("name", jsOr (getMember p "name") (.str "Unnamed Product")),
       ("description", jsOr (getMember p "description") (.str "")),
       ("usageTime", arrOrEmpty (getMember p "usageTime")),
       ("frequency", jsOr (getMember p "frequency") (.str "")),
       ("conflictsWith", arrOrEmpty (getMember p "conflictsWith"))]) := by
  simp [normalizeProduct, jsGet_eq _ _ hp, ok_bind]

/-- Evaluated form of `normalizeConflict` on a non-`null` entry. -/
theorem normalizeConflict_eq (c : JVal) (hc : c ≠ .null) :
    normalizeConflict c = .ok (.obj
      [("products", .arr (resolveParticipants (getMember c "products"))),
       ("reason", jsOr (getMember c "reason") (.str "unspecified"))]) := by
  simp [normalizeConflict, jsGet_eq _ _ hc, ok_bind]

/-- `mapExcept` succeeds elementwise: if every element maps to a success whose
result satisfies `P`, the whole map succeeds, preserves length, and every
output satisfies `P`. -/
theorem mapExcept_ok_of_all (f : JVal → Except String JVal)
    (P : JVal → Prop) (xs : List JVal)
    (h : ∀ x ∈ xs, ∃ y, f x = .ok y ∧ P y) :
    ∃ ys, mapExcept f xs = .ok ys ∧ ys.length = xs.length ∧ ∀ y ∈ ys, P y := by
  induction xs with
  | nil => exact ⟨[], rfl, rfl, by simp⟩
  | cons x tl ih =>
      obtain ⟨y, hy, hPy⟩ := h x (by simp)
      obtain ⟨ys, hys, hlen, hall⟩ := ih (fun a ha => h a (by simp [ha]))
      refine ⟨y :: ys, ?_, by simp [hlen], ?_⟩
      · simp [mapExcept, hy, hys, ok_bind]
      · intro z hz
        rcases List.mem_cons.mp hz with h1 | h1
        · exact h1 ▸ hPy
        · exact hall z h1

/-- `mapExcept` fixpoint transfer: if `f` fixes each of its successful outputs
that satisfies `P`, then a successful `mapExcept` output all of whose members
satisfy `P` is itself fixed. -/
theorem mapExcept_fix (f : JVal → Except String JVal) (P : JVal → Prop)
    (hf : ∀ x y, f x = .ok y → P y → f y = .ok y)
    (xs ys : List JVal) (h : mapExcept f xs = .ok ys)
    (hP : ∀ y ∈ ys, P y) : mapExcept f ys = .ok ys := by
  induction xs generalizing ys with
  | nil =>
      simp [mapExcept] at h
      subst h
      rfl
  | cons x tl ih =>
      simp only [mapExcept] at h
      cases hx : f x with
      | error e => simp [hx, error_bind] at h
      | ok y =>
          simp only [hx, ok_bind] at h
          cases htl : mapExcept f tl with
          | error e => simp [htl, error_bind, map_error] at h
          | ok zs =>
              simp only [htl, ok_bind, map_ok] at h
              cases h
              have hy := hf x y hx (hP y (by simp))
              have hzs := ih zs htl (fun z hz => hP z (by simp [hz]))
              simp [mapExcept, hy, hzs, ok_bind]

theorem jsOr_of_falsy (o : Option JVal) (d : JVal) (h : truthyO o = false) :
    jsOr o d = d := by
  cases o with
  | none => rfl
  | some v => simp_all [jsOr, truthyO]

theorem arrOrEmpty_of_not_arr (o : Option JVal) (h : isArrO o = false) :
    arrOrEmpty o = .arr [] := by
  cases o with
  | none => rfl
  | some v => cases v <;> simp_all [arrOrEmpty, isArrO]

/-!
## Claims
-/

/-- C1, counterexample.  The claim says normalizing
`{productA: "Retinol", productB: "Vitamin C", explanation: "irritation"}`
yields `{products: ["Retinol","Vitamin C"], reason: "irritation"}`.  The code
(`src/index.js` lines 201-218) only reads `conflict.products` and
`conflict.reason`; on this entry it yields `{products: [], reason:
"unspecified"}`, which differs from the claimed result. -/
theorem c1_pair_fields_counterexample :
    normalizeConflict (.obj
        [("productA", .str "Retinol"), ("productB", .str "Vitamin C"),
         ("explanation", .str "irritation")]) =
      .ok (.obj [("products", .arr []), ("reason", .str "unspecified")]) ∧
    (JVal.obj [("products", .arr []), ("reason", .str "unspecified")]) ≠
      .obj [("products", .arr [.str "Retinol", .str "Vitamin C"]),
            ("reason", .str "irritation")] := by
  constructor
  · rfl
  · simp

/-- C1, amended: normalization of a conflict entry reads only the `products`
and `reason` fields; participants given under the singular pair fields
`productA`/`productB` and a reason under an alternately named field are
ignored, so any such entry normalizes to `{products: [], reason:
"unspecified"}` (and is retained in that form). -/
theorem c1_pair_fields_amended (c : JVal) (hc : c ≠ .null)
    (hp : getMember c "products" = none) (hr : getMember c "reason" = none) :
    normalizeConflict c =
      .ok (.obj [("products", .arr []), ("reason", .str "unspecified")]) := by
  rw [normalizeConflict_eq c hc, hp, hr]
  rfl

/-- C1 witness: the amended statement applied to the concrete pair-field
entry from the claim. -/
theorem c1_pair_fields_amended_witness :
    normalizeConflict (.obj
        [("productA", .str "Retinol"), ("productB", .str "Vitamin C"),
         ("explanation", .str "irritation")]) =
      .ok (.obj [("products", .arr []), ("reason", .str "unspecified")]) :=
  c1_pair_fields_amended _ (by simp) rfl rfl

/-- C2, counterexample.  The claim says a conflict whose resolved participant
list has fewer than 2 entries is dropped.  The code never drops a conflict:
normalizing a value whose single conflict carries `products: "Retinol"`
retains that conflict with a 1-element `products` list. -/
theorem c2_short_conflict_counterexample :
    normalize (.obj [("products", .arr []),
        ("conflicts", .arr [.obj [("products", .str "Retinol")]])]) =
      .ok (.obj [("products", .arr []),
        ("conflicts", .arr [.obj [("products", .arr [.str "Retinol"]),
                                  ("reason", .str "unspecified")]]),
        ("recommendedRoutine", .obj [("AM", .arr []), ("PM", .arr [])])]) ∧
    [JVal.str "Retinol"].length < 2 := by
  constructor
  · rfl
  · norm_num

/-- C2, amended: no conflict is ever dropped.  Normalization maps the source
`conflicts` array one-to-one (whenever it succeeds, i.e. no entry is `null`),
so the output has exactly one conflict per input entry, regardless of how
many participants were resolved. -/
theorem c2_no_conflict_dropped (xs : List JVal)
    (h : ∀ c ∈ xs, c ≠ JVal.null) :
    ∃ ys, normalizeConflicts (some (.arr xs)) = .ok ys ∧
      ys.length = xs.length := by
  have : jsOr (some (.arr xs)) (.arr []) = .arr xs := by simp [jsOr, truthyV]
  obtain ⟨ys, hys, hlen, -⟩ :=
    mapExcept_ok_of_all normalizeConflict (fun _ => True) xs
      (fun c hcx => ⟨_, normalizeConflict_eq c (h c hcx), trivial⟩)
  exact ⟨ys, by simp [normalizeConflicts, this, hys], hlen⟩

/-- C2 witness: the amended statement on a singleton conflicts array whose
only entry resolves to a single participant. -/
theorem c2_no_conflict_dropped_witness :
    ∃ ys, normalizeConflicts (some (.arr [.obj [("products", .str "Retinol")]])) =
      .ok ys ∧ ys.length = [JVal.obj [("products", .str "Retinol")]].length :=
  c2_no_conflict_dropped _ (by simp)

/-- C4, counterexample.  The claim quantifies over every product entry of the
parsed value, but on a `null` entry the callback's read `p.name` throws a
`TypeError` instead of yielding a defaulted product; the whole normalization
step aborts. -/
theorem c4_null_product_counterexample :
    normalizeProduct JVal.null =
      .error "TypeError: cannot read properties of null" ∧
    normalize (.obj [("products", .arr [JVal.null])]) =
      .error "TypeError: cannot read properties of null" := by
  exact ⟨rfl, rfl⟩

/-- C4, amended: for every non-`null` product entry, normalization succeeds
and yields `name = "Unnamed Product"` when the source name is absent or
falsy, `description`/`frequency` equal to the empty string when absent or
falsy, and `usageTime`/`conflictsWith` equal to the empty list whenever the
source value is not an array. -/
theorem c4_product_defaults (p : JVal) (hp : p ≠ JVal.null) :
    ∃ q, normalizeProduct p = .ok q ∧
      (truthyO (getMember p "name") = false →
        getMember q "name" = some (.str "Unnamed Product")) ∧
      (truthyO (getMember p "description") = false →
        getMember q "description" = some (.str "")) ∧
      (truthyO (getMember p "frequency") = false →
        getMember q "frequency" = some (.str "")) ∧
      (isArrO (getMember p "usageTime") = false →
        getMember q "usageTime" = some (.arr [])) ∧
      (isArrO (getMember p "conflictsWith") = false →
        getMember q "conflictsWith" = some (.arr [])) := by
  refine ⟨_, normalizeProduct_eq p hp, ?_, ?_, ?_, ?_, ?_⟩ <;> intro h
  · rw [jsOr_of_falsy _ _ h]; exact rfl
  · rw [jsOr_of_falsy _ _ h]; exact rfl
  · rw [jsOr_of_falsy _ _ h]; exact rfl
  · rw [arrOrEmpty_of_not_arr _ h]; exact rfl
  · rw [arrOrEmpty_of_not_arr _ h]; exact rfl

/-- C4 witness: the amended statement on the empty-object entry, whose fields
are all absent. -/
theorem c4_product_defaults_witness :
    ∃ q, normalizeProduct (.obj []) = .ok q ∧
      (truthyO (getMember (JVal.obj []) "name") = false →
        getMember q "name" = some (.str "Unnamed Product")) ∧
      (truthyO (getMember (JVal.obj []) "description") = false →
        getMember q "description" = some (.str "")) ∧
      (truthyO (getMember (JVal.obj []) "frequency") = false →
        getMember q "frequency" = some (.str "")) ∧
      (isArrO (getMember (JVal.obj []) "usageTime") = false →
        getMember q "usageTime" = some (.arr [])) ∧
      (isArrO (getMember (JVal.obj []) "conflictsWith") = false →
        getMember q "conflictsWith" = some (.arr [])) :=
  c4_product_defaults (.obj []) (by simp)

/-- C5, confirmed: a request whose `products` member is missing, not an
array, or an empty array is answered `400 {error: "Products array is
required."}` before the model stage runs, whatever that stage would have
produced; the response records that the model was not invoked. -/
theorem c5_products_validation (products : Option JVal)
    (outcome : ModelOutcome)
    (h : isArrO products = false ∨ products = some (.arr [])) :
    analyzeHandler products outcome =
      ⟨400, .obj [("error", .str "Products array is required.")], false⟩ := by
  have hb : badProductsArg products = true := by
    rcases h with h | h
    · cases products with
      | none => rfl
      | some v => cases v <;> simp_all [badProductsArg, isArrO]
    · subst h
      rfl
  simp [analyzeHandler, hb]

/-- C5 witness: the empty `products` array from the spec's test, with a model
stage that would have parsed successfully. -/
theorem c5_products_validation_witness :
    analyzeHandler (some (.arr [])) (.parsed (.obj [])) =
      ⟨400, .obj [("error", .str "Products array is required.")], false⟩ :=
  c5_products_validation _ _ (Or.inr rfl)

/-- C8, counterexample.  The claim says a successful delivery answers
`{message: "Email sent successfully!"}`; the code's success message
(`src/index.js` line 291) is the longer spam-folder variant. -/
theorem c8_success_message_counterexample :
    (sendEmailHandler (some (.str "user@example.com"))
        (some (.obj [("products", .arr []),
          ("recommendedRoutine", .obj [("AM", .arr []), ("PM", .arr [])]),
          ("conflicts", .arr [])])) true).body =
      .obj [("message", .str "Email sent successfully! Please check your spam folder if you do not see it.")] ∧
    (JVal.obj [("message", .str "Email sent successfully! Please check your spam folder if you do not see it.")]) ≠
      .obj [("message", .str "Email sent successfully!")] := by
  constructor
  · rfl
  · simp

/-- C8, amended: with both `email` and `analysisResult` present (truthy) and
the formatter succeeding on the analysis result, a successful delivery is
answered `200 {message: "Email sent successfully! Please check your spam
folder if you do not see it."}` and a failed delivery `500 {error: "Failed to
send email."}`. -/
theorem c8_send_email_responses (email : Option JVal) (v : JVal)
    (sendOk : Bool) (he : truthyO email = true) (ha : truthyV v = true)
    (txt : String) (hfmt : formatAnalysisToText v = .ok txt) :
    sendEmailHandler email (some v) sendOk =
      if sendOk then
        ⟨200, .obj [("message", .str "Email sent successfully! Please check your spam folder if you do not see it.")]⟩
      else ⟨500, .obj [("error", .str "Failed to send email.")]⟩ := by
  have hcond : (truthyO email && truthyO (some v)) = true := by
    rw [he]
    simp [truthyO, ha]
  cases sendOk <;> simp [sendEmailHandler, hcond, hfmt]

/-- C8 witness: a failing delivery on a concrete well-formed request yields
the 500 error body. -/
theorem c8_send_email_responses_witness :
    sendEmailHandler (some (.str "user@example.com"))
        (some (.obj [("products", .arr []),
          ("recommendedRoutine", .obj [("AM", .arr []), ("PM", .arr [])]),
          ("conflicts", .arr [])])) false =
      if false then
        ⟨200, .obj [("message", .str "Email sent successfully! Please check your spam folder if you do not see it.")]⟩
      else ⟨500, .obj [("error", .str "Failed to send email.")]⟩ :=
  c8_send_email_responses _ _ _ rfl rfl _ rfl

theorem dropWhile_word_prefix (l r : List Char)
    (hl : ∀ c ∈ l, isWordChar c = true) :
    (l ++ '\n' :: r).dropWhile isWordChar = '\n' :: r := by
  have hn : isWordChar '\n' = false := by decide
  induction l with
  | nil => simp [List.dropWhile_cons, hn]
  | cons x xs ih =>
      have hx := hl x (by simp)
      simp [List.dropWhile_cons, hx, ih (fun c hc => hl c (by simp [hc]))]

theorem jsTrimChars_eq_self (cs : List Char)
    (h1 : ∀ c, cs.head? = some c → isJsWhitespace c = false)
    (h2 : ∀ c, cs.getLast? = some c → isJsWhitespace c = false) :
    jsTrimChars cs = cs := by
  unfold jsTrimChars
  have e1 : cs.dropWhile isJsWhitespace = cs := by
    cases hcs : cs with
    | nil => rfl
    | cons a l =>
        have := h1 a (by simp [hcs])
        simp [List.dropWhile_cons, this]
  rw [e1]
  cases hrev : cs.reverse with
  | nil =>
      have : cs = [] := by simpa using congrArg List.reverse hrev
      simp [this]
  | cons b m =>
      have hb : cs.getLast? = some b := by
        rw [← List.head?_reverse, hrev]
        rfl
      have := h2 b hb
      rw [List.dropWhile_cons_of_neg (by simp [this])]
      rw [← hrev, List.reverse_reverse]

/-- C6, confirmed: on a model reply that is exactly a markdown code fence
(three backticks, an optional word-character language tag, a newline, the
inner text, three closing backticks), the fence-stripping step recovers the
inner text exactly, so `JSON.parse` of the stripped reply coincides with
parsing the unfenced inner text directly. -/
theorem c6_fence_stripping (tag inner : String)
    (htag : ∀ c ∈ tag.data, isWordChar c = true) :
    stripModelFence ("```" ++ tag ++ "\n" ++ inner ++ "```") = inner := by
  have hdata : ("```" ++ tag ++ "\n" ++ inner ++ "```").data
      = '`' :: '`' :: '`' ::
          (tag.data ++ '\n' :: (inner.data ++ ['`', '`', '`'])) := by
    simp [String.data_append, show "```".data = ['`', '`', '`'] from rfl,
      show "\n".data = ['\n'] from rfl]
  have htrim : jsTrimChars ('`' :: '`' :: '`' ::
      (tag.data ++ '\n' :: (inner.data ++ ['`', '`', '`'])))
      = '`' :: '`' :: '`' ::
          (tag.data ++ '\n' :: (inner.data ++ ['`', '`', '`'])) := by
    apply jsTrimChars_eq_self
    · intro c hc
      cases hc
      decide
    · intro c hc
      rw [show '`' :: '`' :: '`' ::
          (tag.data ++ '\n' :: (inner.data ++ ['`', '`', '`']))
          = ('`' :: '`' :: '`' ::
              (tag.data ++ '\n' :: (inner.data ++ ['`', '`']))) ++ ['`']
          from by simp] at hc
      rw [List.getLast?_concat] at hc
      cases hc
      decide
  rw [stripModelFence, hdata, htrim]
  rw [if_pos (by simp)]
  rw [show stripOpenFence ('`' :: '`' :: '`' ::
      (tag.data ++ '\n' :: (inner.data ++ ['`', '`', '`'])))
      = inner.data ++ ['`', '`', '`'] from by
    simp [stripOpenFence, dropWhile_word_prefix _ _ htag]]
  rw [show stripCloseFence (inner.data ++ ['`', '`', '`']) = inner.data
      from by simp [stripCloseFence, List.reverse_append]]

/-- C6 witness: the concrete fenced reply with tag `json` and inner text
`{"a": 1}` strips to the inner text. -/
theorem c6_fence_stripping_witness :
    stripModelFence ("```" ++ "json" ++ "\n" ++ "\x7b\"a\": 1\x7d" ++ "```")
      = "\x7b\"a\": 1\x7d" :=
  c6_fence_stripping "json" "\x7b\"a\": 1\x7d" (by decide)

/-- The email body with the conflicts section omitted: header, products
section and routine section only (statement combinator for C9). -/
def formatWithoutConflicts (result : JVal) : Except String String := do
  let ps ← productsSection result
  let rs ← routineSection result
  .ok ("🧴 Your Skincare Analysis Results:\n\n" ++ ps ++ rs)

/-- C9, confirmed: when the `conflicts` field of the analysis result is the
empty list, the email formatter's output is exactly the header, the products
section and the routine section — the conflicts heading and items are not
emitted (the guard `result.conflicts && result.conflicts.length > 0` fails on
`[]`). -/
theorem c9_empty_conflicts_section_omitted (fs : List (String × JVal))
    (h : lookupField fs "conflicts" = some (.arr [])) :
    formatAnalysisToText (.obj fs) = formatWithoutConflicts (.obj fs) := by
  have hcs : conflictsSection (.obj fs) = .ok "" := by
    simp [conflictsSection, jsGet, getMember, h, ok_bind, truthyO, truthyV,
      jsLengthGtZero]
  unfold formatAnalysisToText formatWithoutConflicts
  cases hp : productsSection (.obj fs) with
  | error e => simp [hp, error_bind]
  | ok ps =>
      cases hr : routineSection (.obj fs) with
      | error e => simp [hr, ok_bind, error_bind]
      | ok rs => simp [hp, hr, hcs, ok_bind]

/-- C9 witness: a concrete result with products, a routine and an empty
conflicts list formats without a conflicts section. -/
theorem c9_empty_conflicts_section_omitted_witness :
    formatAnalysisToText (.obj
        [("products", .arr [.obj [("name", .str "Retinol"),
            ("description", .str "Evens tone."),
            ("usageTime", .arr [.str "PM"]), ("frequency", .str "daily")]]),
         ("recommendedRoutine", .obj [("AM", .arr [.str "Cleanser"]),
            ("PM", .arr [.str "Retinol"])]),
         ("conflicts", .arr [])]) =
      formatWithoutConflicts (.obj
        [("products", .arr [.obj [("name", .str "Retinol"),
            ("description", .str "Evens tone."),
            ("usageTime", .arr [.str "PM"]), ("frequency", .str "daily")]]),
         ("recommendedRoutine", .obj [("AM", .arr [.str "Cleanser"]),
            ("PM", .arr [.str "Retinol"])]),
         ("conflicts", .arr [])]) :=
  c9_empty_conflicts_section_omitted _ rfl

/-- Inversion of a successful normalization of an object: recovers the four
intermediate results and the exact shape of the output. -/
theorem normalize_obj_inv (fs : List (String × JVal)) (w : JVal)
    (h : normalize (.obj fs) = .ok w) :
    ∃ ps ps' cs rr,
      lookupField fs "products" = some (.arr ps) ∧
      mapExcept normalizeProduct ps = .ok ps' ∧
      normalizeConflicts
        (lookupField (setField fs "products" (.arr ps')) "conflicts") =
        .ok cs ∧
      normalizeRoutine
        (lookupField
          (setField (setField fs "products" (.arr ps')) "conflicts" (.arr cs))
          "recommendedRoutine") = .ok rr ∧
      w = .obj (setField
        (setField (setField fs "products" (.arr ps')) "conflicts" (.arr cs))
        "recommendedRoutine" rr) := by
  simp only [normalize] at h
  split at h
  case h_1 ps heq =>
      cases hm : mapExcept normalizeProduct ps with
      | error e => rw [hm, error_bind] at h; simp at h
      | ok ps' =>
          rw [hm, ok_bind] at h
          cases hc : normalizeConflicts
              (lookupField (setField fs "products" (.arr ps'))
                "conflicts") with
          | error e => rw [hc, error_bind] at h; simp at h
          | ok cs =>
              rw [hc, ok_bind] at h
              cases hr : normalizeRoutine
                  (lookupField (setField
                    (setField fs "products" (.arr ps'))
                    "conflicts" (.arr cs)) "recommendedRoutine") with
              | error e => rw [hr, error_bind] at h; simp at h
              | ok rr =>
                  rw [hr, ok_bind] at h
                  cases h
                  exact ⟨ps, ps', cs, rr, heq, hm, hc, hr, rfl⟩
  case h_2 x hne => simp at h

/-- C10, confirmed: normalization only rewrites the three top-level fields
`products`, `conflicts` and `recommendedRoutine`; every other top-level field
of the parsed object is carried to the response unchanged. -/
theorem c10_other_fields_unchanged (fs : List (String × JVal)) (k : String)
    (w : JVal) (h : normalize (.obj fs) = .ok w) (hk1 : k ≠ "products")
    (hk2 : k ≠ "conflicts") (hk3 : k ≠ "recommendedRoutine") :
    ∃ gs, w = .obj gs ∧ lookupField gs k = lookupField fs k := by
  obtain ⟨ps, ps', cs, rr, hps, hmap, hcs, hrr, hw⟩ := normalize_obj_inv fs w h
  refine ⟨_, hw, ?_⟩
  rw [lookupField_setField_other _ _ _ _ (Ne.symm hk3),
    lookupField_setField_other _ _ _ _ (Ne.symm hk2),
    lookupField_setField_other _ _ _ _ (Ne.symm hk1)]

/-- C10 witness: a top-level `note` field survives normalization unchanged on
a concrete input. -/
theorem c10_other_fields_unchanged_witness :
    ∃ gs, (JVal.obj [("products", .arr []), ("note", .str "keep"),
        ("conflicts", .arr []),
        ("recommendedRoutine", .obj [("AM", .arr []), ("PM", .arr [])])]) =
      .obj gs ∧
      lookupField gs "note" =
        lookupField [("products", .arr []), ("note", .str "keep")] "note" :=
  c10_other_fields_unchanged [("products", .arr []), ("note", .str "keep")]
    "note" _ rfl (by simp) (by simp) (by simp)

/-- Getting a field of a literal object, one cons at a time (proof-side
reduction rule). -/
theorem getMember_obj_cons (k k' : String) (v : JVal)
    (fs : List (String × JVal)) :
    getMember (.obj ((k, v) :: fs)) k' =
      if k = k' then some v else getMember (.obj fs) k' := by
  simp [getMember, lookupField]

theorem jsOr_truthy (o : Option JVal) (d : JVal) (hd : truthyV d = true) :
    truthyV (jsOr o d) = true := by
  cases o with
  | none => exact hd
  | some v =>
      by_cases h : truthyV v
      · simp [jsOr, h]
      · simp [jsOr, h, hd]

theorem arrOrEmpty_absorb (o : Option JVal) :
    arrOrEmpty (some (arrOrEmpty o)) = arrOrEmpty o := by
  obtain ⟨xs, e⟩ := arrOrEmpty_isArr o
  rw [e]
  rfl

theorem lookupField_fixRoutineList_same (fs : List (String × JVal))
    (k : String) : isArrO (lookupField (fixRoutineList fs k) k) = true := by
  unfold fixRoutineList
  by_cases h : isArrO (lookupField fs k) = true
  · rw [if_pos h]
    exact h
  · rw [if_neg h, lookupField_setField_same]
    rfl

theorem lookupField_fixRoutineList_other (fs : List (String × JVal))
    (k k' : String) (h : k ≠ k') :
    lookupField (fixRoutineList fs k) k' = lookupField fs k' := by
  unfold fixRoutineList
  by_cases h0 : isArrO (lookupField fs k) = true
  · rw [if_pos h0]
  · rw [if_neg h0, lookupField_setField_other _ _ _ _ h]

theorem fixRoutineList_id (fs : List (String × JVal)) (k : String)
    (h : isArrO (lookupField fs k) = true) : fixRoutineList fs k = fs := by
  simp [fixRoutineList, h]

/-- Shape guaranteed for every normalized product entry: the five fields are
present and the two list fields are arrays. -/
def productShape (q : JVal) : Bool :=
  (getMember q "name").isSome && (getMember q "description").isSome &&
    isArrO (getMember q "usageTime") && (getMember q "frequency").isSome &&
    isArrO (getMember q "conflictsWith")

/-- Shape guaranteed for every normalized conflict entry: an array `products`
field and a truthy `reason` field. -/
def conflictShape (c : JVal) : Bool :=
  isArrO (getMember c "products") &&
    (match getMember c "reason" with
     | some r => truthyV r
     | none => false)

/-- Shape guaranteed for the normalized routine when the source routine was
absent, falsy, or an object: `AM` and `PM` members that are arrays. -/
def routineShape (r : JVal) : Bool :=
  isArrO (getMember r "AM") && isArrO (getMember r "PM")

/-- Structural validity of a normalized analysis result. -/
def wellFormedResult (w : JVal) : Bool :=
  match getMember w "products", getMember w "conflicts",
      getMember w "recommendedRoutine" with
  | some (.arr ps), some (.arr cs), some rr =>
      ps.all productShape && cs.all conflictShape && routineShape rr
  | _, _, _ => false

theorem normalizeProduct_shape (p : JVal) (hp : p ≠ JVal.null) :
    ∃ q, normalizeProduct p = .ok q ∧ productShape q = true := by
  obtain ⟨xs1, e1⟩ := arrOrEmpty_isArr (getMember p "usageTime")
  obtain ⟨xs2, e2⟩ := arrOrEmpty_isArr (getMember p "conflictsWith")
  refine ⟨.obj
    [("name", jsOr (getMember p "name") (.str "Unnamed Product")),
     ("description", jsOr (getMember p "description") (.str "")),
     ("usageTime", .arr xs1),
     ("frequency", jsOr (getMember p "frequency") (.str "")),
     ("conflictsWith", .arr xs2)], ?_, ?_⟩
  · rw [normalizeProduct_eq p hp, e1, e2]
  · simp [productShape, getMember, lookupField, isArrO]

theorem normalizeConflict_shape (c : JVal) (hc : c ≠ JVal.null) :
    ∃ q, normalizeConflict c = .ok q ∧ conflictShape q = true := by
  refine ⟨_, normalizeConflict_eq c hc, ?_⟩
  simp [conflictShape, getMember, lookupField, isArrO,
    jsOr_truthy _ (JVal.str "unspecified") (by decide)]

theorem normalizeRoutine_shape (o : Option JVal)
    (h : truthyO o = false ∨ ∃ gs, o = some (.obj gs)) :
    ∃ r, normalizeRoutine o = .ok r ∧ routineShape r = true := by
  rcases h with h | ⟨gs, rfl⟩
  · refine ⟨.obj [("AM", .arr []), ("PM", .arr [])], ?_, ?_⟩
    · simp [normalizeRoutine, h]
    · simp [routineShape, getMember, lookupField, isArrO]
  · refine ⟨.obj (fixRoutineList (fixRoutineList gs "AM") "PM"), ?_, ?_⟩
    · simp [normalizeRoutine, truthyO, truthyV]
    · have hPM := lookupField_fixRoutineList_same (fixRoutineList gs "AM") "PM"
      have hAM : isArrO (lookupField
          (fixRoutineList (fixRoutineList gs "AM") "PM") "AM") = true := by
        rw [lookupField_fixRoutineList_other _ _ _ (by simp)]
        exact lookupField_fixRoutineList_same gs "AM"
      simp [routineShape, getMember, hAM, hPM]

/-- Successful conflict-list normalization when the source field is falsy or
an array of non-`null` entries, with the shape of the outputs. -/
theorem normalizeConflicts_ok (o : Option JVal)
    (h : truthyO o = false ∨
      ∃ cs0, o = some (.arr cs0) ∧ ∀ c ∈ cs0, c ≠ JVal.null) :
    ∃ cs, normalizeConflicts o = .ok cs ∧ ∀ c ∈ cs, conflictShape c = true := by
  rcases h with h | ⟨cs0, rfl, hnn⟩
  · refine ⟨[], ?_, by simp⟩
    simp [normalizeConflicts, jsOr_of_falsy _ _ h, mapExcept]
  · obtain ⟨cs, hcs, -, hall⟩ :=
      mapExcept_ok_of_all normalizeConflict (fun c => conflictShape c = true)
        cs0 (fun c hcx => normalizeConflict_shape c (hnn c hcx))
    refine ⟨cs, ?_, hall⟩
    simpa [normalizeConflicts, jsOr, truthyV] using hcs

/-- C3, counterexample.  The claim says normalization never raises and every
successfully parsed value is answered with status 200.  On a parsed value
with no `products` field, `json.products.map` throws, the outer `catch`
answers 500, and no result is produced. -/
theorem c3_missing_products_counterexample :
    normalize (.obj [("conflicts", .arr [])]) =
      .error "TypeError: json.products.map is not a function" ∧
    analyzeHandler (some (.arr [.obj [("name", .str "Toner")]]))
        (.parsed (.obj [("conflicts", .arr [])])) =
      ⟨500, .obj [("error", .str "Failed to process the request.")], true⟩ := by
  exact ⟨rfl, rfl⟩

/-- C3, amended: normalization is not total — it raises (and the request is
answered 500) when the parsed value has no array `products` field, among
other malformed shapes.  On every parsed object whose `products` field is an
array of non-`null` entries, whose `conflicts` field is absent/falsy or an
array of non-`null` entries, and whose `recommendedRoutine` is absent/falsy
or an object, normalization succeeds, the result is structurally valid (all
fields required by the email formatter present, list fields arrays, reasons
truthy), and the request is answered with status 200 and that result. -/
theorem c3_normalization_on_repairable_shapes (fs : List (String × JVal))
    (ps : List JVal) (hps : lookupField fs "products" = some (.arr ps))
    (hnn : ∀ p ∈ ps, p ≠ JVal.null)
    (hc : truthyO (lookupField fs "conflicts") = false ∨
      ∃ cs0, lookupField fs "conflicts" = some (.arr cs0) ∧
        ∀ c ∈ cs0, c ≠ JVal.null)
    (hr : truthyO (lookupField fs "recommendedRoutine") = false ∨
      ∃ gs, lookupField fs "recommendedRoutine" = some (.obj gs))
    (prods : Option JVal) (hgood : badProductsArg prods = false) :
    ∃ w, normalize (.obj fs) = .ok w ∧ wellFormedResult w = true ∧
      analyzeHandler prods (.parsed (.obj fs)) = ⟨200, w, true⟩ := by
  obtain ⟨ps', hmap, hlen, hallP⟩ :=
    mapExcept_ok_of_all normalizeProduct (fun q => productShape q = true) ps
      (fun p hp => normalizeProduct_shape p (hnn p hp))
  have hl1 : lookupField (setField fs "products" (.arr ps')) "conflicts"
      = lookupField fs "conflicts" :=
    lookupField_setField_other _ _ _ _ (by simp)
  obtain ⟨cs, hcs, hallC⟩ := normalizeConflicts_ok (lookupField fs "conflicts") hc
  have hl2 : lookupField (setField (setField fs "products" (.arr ps'))
        "conflicts" (.arr cs)) "recommendedRoutine"
      = lookupField fs "recommendedRoutine" := by
    rw [lookupField_setField_other _ _ _ _ (by simp),
      lookupField_setField_other _ _ _ _ (by simp)]
  obtain ⟨rr, hrr, hrshape⟩ :=
    normalizeRoutine_shape (lookupField fs "recommendedRoutine") hr
  have hnorm : normalize (.obj fs) = .ok (.obj (setField
      (setField (setField fs "products" (.arr ps')) "conflicts" (.arr cs))
      "recommendedRoutine" rr)) := by
    simp only [normalize, hps]
    rw [hmap, ok_bind, hl1, hcs, ok_bind, hl2, hrr, ok_bind]
  refine ⟨_, hnorm, ?_, ?_⟩
  · have hwp : lookupField (setField (setField
        (setField fs "products" (.arr ps')) "conflicts" (.arr cs))
        "recommendedRoutine" rr) "products" = some (.arr ps') := by
      rw [lookupField_setField_other _ _ _ _ (by simp),
        lookupField_setField_other _ _ _ _ (by simp),
        lookupField_setField_same]
    have hwc : lookupField (setField (setField
        (setField fs "products" (.arr ps')) "conflicts" (.arr cs))
        "recommendedRoutine" rr) "conflicts" = some (.arr cs) := by
      rw [lookupField_setField_other _ _ _ _ (by simp),
        lookupField_setField_same]
    have hwr : lookupField (setField (setField
        (setField fs "products" (.arr ps')) "conflicts" (.arr cs))
        "recommendedRoutine" rr) "recommendedRoutine" = some rr :=
      lookupField_setField_same _ _ _
    simp only [wellFormedResult, getMember, hwp, hwc, hwr]
    simp only [Bool.and_eq_true, List.all_eq_true]
    exact ⟨⟨fun q hq => hallP q hq, fun c hcx => hallC c hcx⟩, hrshape⟩
  · simp [analyzeHandler, hgood, hnorm]

/-- C3 witness: a concrete repairable parsed value (products present,
conflicts well-shaped, routine object with a malformed `AM`) normalizes
successfully into a structurally valid result answered with 200. -/
theorem c3_normalization_on_repairable_shapes_witness :
    ∃ w, normalize (.obj
        [("products", .arr [.obj [("name", .str "Toner")]]),
         ("conflicts", .arr [.obj [("products",
            .arr [.str "Retinol", .str "Vitamin C"])]]),
         ("recommendedRoutine", .obj [("AM", .str "oops")])]) = .ok w ∧
      wellFormedResult w = true ∧
      analyzeHandler (some (.arr [.obj [("name", .str "Toner")]]))
        (.parsed (.obj
          [("products", .arr [.obj [("name", .str "Toner")]]),
           ("conflicts", .arr [.obj [("products",
              .arr [.str "Retinol", .str "Vitamin C"])]]),
           ("recommendedRoutine", .obj [("AM", .str "oops")])])) =
        ⟨200, w, true⟩ :=
  c3_normalization_on_repairable_shapes
    [("products", .arr [.obj [("name", .str "Toner")]]),
     ("conflicts", .arr [.obj [("products",
        .arr [.str "Retinol", .str "Vitamin C"])]]),
     ("recommendedRoutine", .obj [("AM", .str "oops")])]
    [.obj [("name", .str "Toner")]] rfl (by simp)
    (Or.inr ⟨[.obj [("products", .arr [.str "Retinol", .str "Vitamin C"])]],
      rfl, by simp⟩)
    (Or.inr ⟨[("AM", .str "oops")], rfl⟩)
    (some (.arr [.obj [("name", .str "Toner")]])) rfl

/-- Is the value a JSON string? -/
def isStrV : JVal → Bool
  | .str _ => true
  | _ => false

/-- All participants of one normalized conflict entry are strings. -/
def conflictEntryStrings (c : JVal) : Bool :=
  match getMember c "products" with
  | some (.arr qs) => qs.all isStrV
  | _ => true

/-- All conflict participants of a result are strings. -/
def conflictParticipantsStrings (j : JVal) : Bool :=
  match getMember j "conflicts" with
  | some (.arr cs) => cs.all conflictEntryStrings
  | _ => true

theorem normalizeProduct_fix (x y : JVal) (h : normalizeProduct x = .ok y) :
    normalizeProduct y = .ok y := by
  have hx : x ≠ JVal.null := by
    intro e
    subst e
    simp [normalizeProduct, jsGet, error_bind] at h
  rw [normalizeProduct_eq x hx] at h
  injection h with h'
  subst h'
  rw [normalizeProduct_eq _ (by simp)]
  simp [getMember, lookupField, jsOr_absorb, arrOrEmpty_absorb]

theorem map_coerce_strings (qs : List JVal) (h : qs.all isStrV = true) :
    qs.map coerceConflictProduct = qs := by
  induction qs with
  | nil => rfl
  | cons q tl ih =>
      rw [List.all_cons, Bool.and_eq_true] at h
      obtain ⟨h1, h2⟩ := h
      have hq : coerceConflictProduct q = q := by
        cases q with
        | str s => rfl
        | null => simp [isStrV] at h1
        | bool b => simp [isStrV] at h1
        | num n => simp [isStrV] at h1
        | arr xs => simp [isStrV] at h1
        | obj fs => simp [isStrV] at h1
      rw [List.map_cons, hq, ih h2]

theorem normalizeConflict_fix (x y : JVal) (h : normalizeConflict x = .ok y)
    (hP : conflictEntryStrings y = true) : normalizeConflict y = .ok y := by
  have hx : x ≠ JVal.null := by
    intro e
    subst e
    simp [normalizeConflict, jsGet, error_bind] at h
  rw [normalizeConflict_eq x hx] at h
  injection h with h'
  subst h'
  have hqs : (resolveParticipants (getMember x "products")).all isStrV
      = true := by
    simpa [conflictEntryStrings, getMember, lookupField] using hP
  rw [normalizeConflict_eq _ (by simp)]
  rw [show getMember (JVal.obj
      [("products", .arr (resolveParticipants (getMember x "products"))),
       ("reason", jsOr (getMember x "reason") (.str "unspecified"))])
      "products"
      = some (.arr (resolveParticipants (getMember x "products"))) from rfl]
  rw [show getMember (JVal.obj
      [("products", .arr (resolveParticipants (getMember x "products"))),
       ("reason", jsOr (getMember x "reason") (.str "unspecified"))])
      "reason"
      = some (jsOr (getMember x "reason") (.str "unspecified")) from rfl]
  rw [jsOr_absorb]
  rw [show resolveParticipants
      (some (.arr (resolveParticipants (getMember x "products"))))
      = (resolveParticipants (getMember x "products")).map
          coerceConflictProduct from rfl]
  rw [map_coerce_strings _ hqs]

theorem normalizeRoutine_fix (o : Option JVal) (rr : JVal)
    (h : normalizeRoutine o = .ok rr) :
    normalizeRoutine (some rr) = .ok rr := by
  unfold normalizeRoutine at h
  by_cases ht : truthyO o = true
  · rw [if_pos ht] at h
    cases o with
    | none => simp [truthyO] at ht
    | some v =>
        cases v with
        | obj gs =>
            injection h with h'
            subst h'
            have hAM : isArrO (lookupField
                (fixRoutineList (fixRoutineList gs "AM") "PM") "AM")
                = true := by
              rw [lookupField_fixRoutineList_other _ _ _ (by simp)]
              exact lookupField_fixRoutineList_same gs "AM"
            have hPM :=
              lookupField_fixRoutineList_same (fixRoutineList gs "AM") "PM"
            have e : normalizeRoutine (some (.obj
                (fixRoutineList (fixRoutineList gs "AM") "PM")))
                = .ok (.obj (fixRoutineList (fixRoutineList
                    (fixRoutineList (fixRoutineList gs "AM") "PM")
                    "AM") "PM")) := by
              simp [normalizeRoutine, truthyO, truthyV]
            rw [e, fixRoutineList_id _ _ hAM, fixRoutineList_id _ _ hPM]
        | arr xs =>
            injection h with h'
            subst h'
            simp [normalizeRoutine, truthyO, truthyV]
        | null => simp [truthyO, truthyV] at ht
        | bool b => simp at h
        | num n => simp at h
        | str s => simp at h
  · rw [if_neg ht] at h
    injection h with h'
    subst h'
    rfl

/-- C7, counterexample.  The claim says normalization is idempotent.  A
conflict participant given as `{product: {product: "x"}}` resolves to the
inner object `{product: "x"}` on the first pass and to the string `"x"` on a
second pass, so applying normalization to its own output changes it. -/
theorem c7_idempotence_counterexample :
    normalize (.obj [("products", .arr []),
        ("conflicts", .arr [.obj [("products",
          .arr [.obj [("product", .obj [("product", .str "x")])]])]])]) =
      .ok (.obj [("products", .arr []),
        ("conflicts", .arr [.obj [("products",
            .arr [.obj [("product", .str "x")]]),
          ("reason", .str "unspecified")]]),
        ("recommendedRoutine", .obj [("AM", .arr []), ("PM", .arr [])])]) ∧
    normalize (.obj [("products", .arr []),
        ("conflicts", .arr [.obj [("products",
            .arr [.obj [("product", .str "x")]]),
          ("reason", .str "unspecified")]]),
        ("recommendedRoutine", .obj [("AM", .arr []), ("PM", .arr [])])]) =
      .ok (.obj [("products", .arr []),
        ("conflicts", .arr [.obj [("products", .arr [.str "x"]),
          ("reason", .str "unspecified")]]),
        ("recommendedRoutine", .obj [("AM", .arr []), ("PM", .arr [])])]) ∧
    (JVal.obj [("products", .arr []),
        ("conflicts", .arr [.obj [("products", .arr [.str "x"]),
          ("reason", .str "unspecified")]]),
        ("recommendedRoutine", .obj [("AM", .arr []), ("PM", .arr [])])]) ≠
      .obj [("products", .arr []),
        ("conflicts", .arr [.obj [("products",
            .arr [.obj [("product", .str "x")]]),
          ("reason", .str "unspecified")]]),
        ("recommendedRoutine", .obj [("AM", .arr []), ("PM", .arr [])])] := by
  refine ⟨rfl, rfl, ?_⟩
  simp

/-- C7, amended: normalization is idempotent on every output whose resolved
conflict participants are all strings (in particular whenever each source
participant was a string, or an object whose `product` member is a string, or
a value serialized by `JSON.stringify`); a participant resolved to a
non-string value — possible only through a truthy non-string `product`
member — is coerced further by a second pass, so idempotence fails exactly
there. -/
theorem c7_idempotent_on_string_participants (j w : JVal)
    (h : normalize j = .ok w)
    (hs : conflictParticipantsStrings w = true) : normalize w = .ok w := by
  cases j with
  | null => simp [normalize] at h
  | bool b => simp [normalize] at h
  | num n => simp [normalize] at h
  | str s => simp [normalize] at h
  | arr xs => simp [normalize] at h
  | obj fs =>
  obtain ⟨ps, ps', cs, rr, hps, hmap, hcs, hrr, hw⟩ := normalize_obj_inv fs w h
  subst hw
  set gs3 := setField
    (setField (setField fs "products" (.arr ps')) "conflicts" (.arr cs))
    "recommendedRoutine" rr with hgs3
  have hwp : lookupField gs3 "products" = some (.arr ps') := by
    rw [hgs3, lookupField_setField_other _ _ _ _ (by simp),
      lookupField_setField_other _ _ _ _ (by simp), lookupField_setField_same]
  have hwc : lookupField gs3 "conflicts" = some (.arr cs) := by
    rw [hgs3, lookupField_setField_other _ _ _ _ (by simp),
      lookupField_setField_same]
  have hwr : lookupField gs3 "recommendedRoutine" = some rr := by
    rw [hgs3, lookupField_setField_same]
  have hm2 : mapExcept normalizeProduct ps' = .ok ps' :=
    mapExcept_fix _ (fun _ => True)
      (fun x y hxy _ => normalizeProduct_fix x y hxy) ps ps' hmap
      (fun _ _ => trivial)
  obtain ⟨cs0, hcs0⟩ : ∃ cs0, mapExcept normalizeConflict cs0 = .ok cs := by
    unfold normalizeConflicts at hcs
    split at hcs
    · exact ⟨_, hcs⟩
    · simp at hcs
  have hcstr : ∀ c ∈ cs, conflictEntryStrings c = true := by
    have hh := hs
    simp only [conflictParticipantsStrings, getMember, hwc,
      List.all_eq_true] at hh
    exact fun c hcx => hh c hcx
  have hc2 : mapExcept normalizeConflict cs = .ok cs :=
    mapExcept_fix _ (fun c => conflictEntryStrings c = true)
      normalizeConflict_fix cs0 cs hcs0 hcstr
  have hr2 : normalizeRoutine (some rr) = .ok rr := normalizeRoutine_fix _ _ hrr
  have e1 : setField gs3 "products" (.arr ps') = gs3 :=
    setField_self _ _ _ hwp
  have e2 : setField gs3 "conflicts" (.arr cs) = gs3 :=
    setField_self _ _ _ hwc
  have e3 : setField gs3 "recommendedRoutine" rr = gs3 :=
    setField_self _ _ _ hwr
  simp only [normalize, hwp]
  rw [hm2, ok_bind, e1, hwc]
  rw [show normalizeConflicts (some (.arr cs))
      = mapExcept normalizeConflict cs from by
    simp [normalizeConflicts, jsOr, truthyV]]
  rw [hc2, ok_bind, e2, hwr, hr2, ok_bind, e3]

/-- C7 witness: the amended statement applied to the output of normalizing
`{products: []}`, whose (empty) conflict list trivially has only string
participants. -/
theorem c7_idempotent_on_string_participants_witness :
    normalize (.obj [("products", .arr []), ("conflicts", .arr []),
        ("recommendedRoutine", .obj [("AM", .arr []), ("PM", .arr [])])]) =
      .ok (.obj [("products", .arr []), ("conflicts", .arr []),
        ("recommendedRoutine", .obj [("AM", .arr []), ("PM", .arr [])])]) :=
  c7_idempotent_on_string_participants (.obj [("products", .arr [])]) _ rfl rfl

end SkindexServer
